import Mathlib

/-!
Verification development for the sector fund-flow heatmap pipeline
(`stock_block.py`).  The pandas `DataFrame` is embedded column-major as a
`Table` of named columns of `Cell`s; numeric values are modelled over `ℚ`
(the concrete amounts exercised here are exactly representable as binary
floats, so rational arithmetic agrees with the source's float arithmetic
at every evaluation point used below).
-/

set_option autoImplicit false

namespace StockBlock

/-- One entry of a pandas column: a numeric value, a string, or a missing
value (`NaN`). -/
inductive Cell where
  | num (q : ℚ)
  | str (s : String)
  | na
deriving DecidableEq

/-- `true` on the missing value `NaN`. -/
def Cell.isNa : Cell → Bool
  | .na => true
  | _ => false

/-- `true` on string-typed cells. -/
def Cell.isStr : Cell → Bool
  | .str _ => true
  | _ => false

/-- Numeric content of a cell; post-normalization columns consist of `num`
cells only, so the default `0` for non-numeric cells is never observed by
the theorems below. -/
def Cell.toQ : Cell → ℚ
  | .num q => q
  | _ => 0

/-- A pandas `DataFrame`, column-major: a list of (column name, cells). -/
structure Table where
  cols : List (String × List Cell)
deriving DecidableEq

/-- `pd.DataFrame()`: the empty frame returned by the `except` branch. -/
def Table.empty : Table := ⟨[]⟩

/-- `df.empty`: true when the frame has no rows (or no columns). -/
def Table.isEmpty (t : Table) : Bool :=
  t.cols.all (fun c => c.2.isEmpty)

/-- Number of rows (length of the first column; `0` for no columns). -/
def Table.rowCount (t : Table) : Nat :=
  match t.cols with
  | [] => 0
  | c :: _ => c.2.length

/-- `df[name]` as a total lookup: the cells of the named column, `[]` when
the column is absent (used only where the column is known to exist). -/
def Table.colOf (t : Table) (name : String) : List Cell :=
  match t.cols.find? (fun c => c.1 == name) with
  | some c => c.2
  | none => []

/-- `df[name]` with pandas' `KeyError` on a missing column. -/
def Table.getColE (t : Table) (name : String) : Except String (List Cell) :=
  match t.cols.find? (fun c => c.1 == name) with
  | some c => .ok c.2
  | none => .error ("KeyError: " ++ name)

/-- `df[name] = cells`: overwrite the column in place when it exists,
otherwise append it as the last column (pandas column assignment). -/
def Table.setCol (t : Table) (name : String) (cells : List Cell) : Table :=
  if t.cols.any (fun c => c.1 == name) then
    ⟨t.cols.map (fun c => if c.1 == name then (name, cells) else c)⟩
  else
    ⟨t.cols ++ [(name, cells)]⟩

/-- Keep the entries of `xs` whose mask bit is `true` (row selection). -/
def maskFilter {α : Type} : List α → List Bool → List α
  | [], _ => []
  | _, [] => []
  | x :: xs, b :: bs => if b then x :: maskFilter xs bs else maskFilter xs bs

/-- `df.dropna(subset=[name])`: drop every row whose cell in the named
column is `NaN`, keeping all columns aligned. -/
def Table.dropnaSubset (t : Table) (name : String) : Table :=
  let mask := (t.colOf name).map (fun c => !c.isNa)
  ⟨t.cols.map (fun c => (c.1, maskFilter c.2 mask))⟩

/-- Interpret a list of characters as a natural number, failing on a
non-digit. -/
def digitsToNat? : List Char → Option Nat
  | [] => some 0
  | c :: cs =>
    if c.isDigit then
      (digitsToNat? cs).map (fun n => (c.toNat - '0'.toNat) * 10 ^ cs.length + n)
    else
      none

/-- Parse an unsigned decimal literal (`"12"`, `"3.2"`, `".5"`, `"5."`). -/
def parseUnsigned? (l : List Char) : Option ℚ :=
  let ip := l.takeWhile Char.isDigit
  let rest := l.dropWhile Char.isDigit
  match rest with
  | [] =>
    if ip.isEmpty then none
    else (digitsToNat? ip).map (fun n => (n : ℚ))
  | '.' :: fp =>
    if ip.isEmpty && fp.isEmpty then none
    else
      match digitsToNat? ip, digitsToNat? fp with
      | some n, some m => some ((n : ℚ) + (m : ℚ) / 10 ^ fp.length)
      | _, _ => none
  | _ => none

/-- Parse a signed decimal literal, the fragment of Python's numeric
parsing that `pd.to_numeric` needs for the inputs considered here. -/
def parseDecimal? (s : String) : Option ℚ :=
  match s.data with
  | '-' :: rest => (parseUnsigned? rest).map Neg.neg
  | '+' :: rest => parseUnsigned? rest
  | l => parseUnsigned? l

/-- Replace every (non-overlapping, leftmost) occurrence of `pat` in `l`
by nothing, with explicit fuel for structural recursion; fuel `≥ l.length`
is always sufficient since every step consumes at least one character. -/
def removeAllAux (pat : List Char) : Nat → List Char → List Char
  | 0, l => l
  | _ + 1, [] => []
  | fuel + 1, c :: rest =>
    if pat ≠ [] ∧ pat.isPrefixOf (c :: rest) then
      removeAllAux pat fuel ((c :: rest).drop pat.length)
    else
      c :: removeAllAux pat fuel rest

/-- `s.replace(pat, '', regex=False)` of `pandas.Series.str.replace`:
remove every occurrence of `pat` from `s`. -/
def removeAllStr (s pat : String) : String :=
  ⟨removeAllAux pat.data s.data.length s.data⟩

/-- Floor of a rational, written out through floor-division of the
numerator by the (positive) denominator so that it evaluates inside the
kernel. -/
def qfloor (q : ℚ) : ℤ := q.num.fdiv (q.den : ℤ)

/-- Round half-to-even to an integer (IEEE/numpy rounding, the semantics
of `numpy.round` used by `Series.round`). -/
def roundHalfEven (q : ℚ) : ℤ :=
  let f := qfloor q
  if q - f < 1 / 2 then f
  else if q - f > 1 / 2 then f + 1
  else if f % 2 = 0 then f else f + 1

/-- `Series.round(2)`: round half-to-even at the second decimal place. -/
def roundQ2 (q : ℚ) : ℚ := (roundHalfEven (q * 100) : ℚ) / 100

/-- Modelled from the spec: "round half-up to 2 decimal places", i.e.
`decimal.ROUND_HALF_UP` (ties away from zero), the rounding mode the spec
prescribes; stated only to be compared against the source's `roundQ2`. -/
def roundHalfUp2 (q : ℚ) : ℚ :=
  (if 0 ≤ q then (qfloor (q * 100 + 1 / 2) : ℚ) else (-(qfloor (-(q * 100) + 1 / 2)) : ℚ)) / 100

/-- Elementwise effect of `series / 100000000` on cells that support the
division: a number is divided, `NaN` propagates.  (A string cell raises
instead; see `colDiv`.) -/
def divCell : Cell → Cell
  | .num q => .num (q / 100000000)
  | .na => .na
  | .str s => .str s

/-- `df['主力净流入-净额'] / 100000000` on an object-dtype column:
elementwise division by the scalar, raising `TypeError` as soon as any
element is a string (Python `str` has no `/`). -/
def colDiv : List Cell → Except String (List Cell)
  | [] => .ok []
  | .str s :: _ => .error ("TypeError: unsupported operand type(s) for /: str " ++ s)
  | c :: cs => (colDiv cs).map (fun ds => divCell c :: ds)

/-- Elementwise `Series.round(2)`: round numbers, propagate `NaN`
(object cells cannot occur here, the column was produced by `colDiv`). -/
def roundCell : Cell → Cell
  | .num q => .num (roundQ2 q)
  | c => c

/-- Elementwise `pd.to_numeric(..., errors='coerce')`: numbers pass
through, `NaN` stays, a string becomes its parsed value or `NaN`. -/
def coerceCell : Cell → Cell
  | .num q => .num q
  | .na => .na
  | .str s =>
    match parseDecimal? s with
    | some q => .num q
    | none => .na

/-- Elementwise `abs(series)`: absolute value on numbers, `NaN` stays. -/
def absCell : Cell → Cell
  | .num q => .num |q|
  | c => c

/-- One raw record of the provider `ak.stock_sector_fund_flow_rank`:
sector name, price change (`涨跌幅`), main net inflow (`主力净流入-净额`)
and net-inflow ratio (`主力净流入-净占比`), the four logical fields the
pipeline touches.  The three numeric fields arrive as arbitrary cells. -/
structure RawRec where
  name : String
  pct : Cell
  netInflow : Cell
  ratio : Cell
deriving DecidableEq

/-- The provider's raw frame for a period indicator: column names of the
numeric fields carry the indicator as a textual prefix. -/
def mkRaw (ind : String) (rs : List RawRec) : Table :=
  ⟨[("名称", rs.map (fun r => Cell.str r.name)),
    (ind ++ "涨跌幅", rs.map (fun r => r.pct)),
    (ind ++ "主力净流入-净额", rs.map (fun r => r.netInflow)),
    (ind ++ "主力净流入-净占比", rs.map (fun r => r.ratio))]⟩

/-- The period indicators offered by the sidebar radio control. -/
def indicators : List String := ["今日", "5日", "10日"]

/-- `raw.columns.str.replace(indicator, '', regex=False)`. -/
def stripCols (ind : String) (t : Table) : Table :=
  ⟨t.cols.map (fun c => (removeAllStr c.1 ind, c.2))⟩

/-- `raw.rename(columns={'名称': '板块名称'})`. -/
def renameTable (t : Table) : Table :=
  ⟨t.cols.map (fun c => if c.1 == "名称" then ("板块名称", c.2) else c)⟩

/-- The body of `process_data` after the fetch (source lines 27–40):
strip the indicator from the column names, rename, derive
`资金净流入(亿)` by scalar division and rounding, coerce `涨跌幅`,
derive `流向强度`, and drop rows with missing `资金净流入(亿)`.
Any raised exception is an `Except.error`. -/
def processTable (ind : String) (raw : Table) : Except String Table := do
  let t1 := stripCols ind raw
  let df := renameTable t1
  let inflow ← df.getColE "主力净流入-净额"
  let divided ← colDiv inflow
  let df := df.setCol "资金净流入(亿)" divided
  let yi ← df.getColE "资金净流入(亿)"
  let df := df.setCol "资金净流入(亿)" (yi.map roundCell)
  let pct ← df.getColE "涨跌幅"
  let df := df.setCol "涨跌幅" (pct.map coerceCell)
  let yi2 ← df.getColE "资金净流入(亿)"
  let df := df.setCol "流向强度" (yi2.map absCell)
  pure (df.dropnaSubset "资金净流入(亿)")

/-- The whole `try` body of `process_data`: the provider call (whose
outcome is the `fetch` argument) followed by the normalization steps. -/
def processDataE (ind : String) (fetch : Except String Table) : Except String Table := do
  let raw ← fetch
  processTable ind raw

/-- `process_data` with its catch-all `except` handler: on any exception
the error is reported via `st.error(f"数据错误: ...")` (second component)
and the empty frame is returned. -/
def process_data (ind : String) (fetch : Except String Table) :
    Table × Option String :=
  match processDataE ind fetch with
  | .ok t => (t, none)
  | .error e => (Table.empty, some ("数据错误: " ++ e))

/-- One row of the fully normalized frame (the spec's `NormalizedRow`,
plus the two untouched provider columns that survive in the frame). -/
structure NRow where
  name : String
  pct : Cell
  rawInflow : Cell
  ratio : Cell
  netInflowYi : ℚ
  flowStrength : ℚ
deriving DecidableEq

/-- Lay a snapshot out as the frame `process_data` returns: the six
columns in the order the pipeline produces them. -/
def toTable (snap : List NRow) : Table :=
  ⟨[("板块名称", snap.map (fun r => Cell.str r.name)),
    ("涨跌幅", snap.map (fun r => r.pct)),
    ("主力净流入-净额", snap.map (fun r => r.rawInflow)),
    ("主力净流入-净占比", snap.map (fun r => r.ratio)),
    ("资金净流入(亿)", snap.map (fun r => Cell.num r.netInflowYi)),
    ("流向强度", snap.map (fun r => Cell.num r.flowStrength))]⟩

/-- A raw row survives `dropna(subset=['资金净流入(亿)'])` exactly when
its divided-and-rounded net-inflow cell is not `NaN`. -/
def keepRow (r : RawRec) : Bool := !(roundCell (divCell r.netInflow)).isNa

/-- The normalized row built from a kept raw row (total; meaningful on
rows with a numeric net inflow, the only rows that are ever kept when the
division has not raised). -/
def normRow (r : RawRec) : NRow :=
  { name := r.name
    pct := coerceCell r.pct
    rawInflow := r.netInflow
    ratio := r.ratio
    netInflowYi := roundQ2 (r.netInflow.toQ / 100000000)
    flowStrength := |roundQ2 (r.netInflow.toQ / 100000000)| }

/-- Row-level view of the whole normalization: keep the rows with a
defined net inflow, in provider order, and normalize each. -/
def normalizeRows (rs : List RawRec) : List NRow :=
  (rs.filter keepRow).map normRow

/-- An RGB color; channels are kept as rationals. -/
abbrev ColorV := ℚ × ℚ × ℚ

/-- The neutral (white, `"#ffffff"`) stop of the palette. -/
def neutralColor : ColorV := (255, 255, 255)

/-- The five-stop diverging palette `COLOR_SCALE` of the source, hex
stops written out as RGB channels. -/
def COLOR_SCALE : List (ℚ × ColorV) :=
  [(0, (0, 255, 0)),
   (45 / 100, (223, 255, 223)),
   (1 / 2, neutralColor),
   (55 / 100, (255, 229, 229)),
   (1, (255, 0, 0))]

/-- Linear interpolation of each channel: `c1 + t * (c2 - c1)`. -/
def mixColor (c1 c2 : ColorV) (t : ℚ) : ColorV :=
  (c1.1 + t * (c2.1 - c1.1),
   c1.2.1 + t * (c2.2.1 - c1.2.1),
   c1.2.2 + t * (c2.2.2 - c1.2.2))

/-- Piecewise-linear interpolation across a sorted stop list at a
normalized position `t` (clamped to the first/last stop). -/
def interpStops : List (ℚ × ColorV) → ℚ → ColorV
  | [], _ => neutralColor
  | [(_, c)], _ => c
  | (p1, c1) :: (p2, c2) :: rest, t =>
    if t ≤ p1 then c1
    else if t ≤ p2 then mixColor c1 c2 ((t - p1) / (p2 - p1))
    else interpStops ((p2, c2) :: rest) t

/-- Modelled from the spec: the color interpolation (`color_for`) is
performed inside the external plotting library, not by repository code.
Per the spec (§4.2): the color follows the five fixed stops of
`COLOR_SCALE` at the normalized position `t = (value + R) / (2R)`, linear
in each channel, and "Midpoint (`value = 0`) must always map to the
neutral stop regardless of `R`" (the source pins this with
`color_continuous_midpoint=0`). -/
def colorFor (R v : ℚ) : ColorV :=
  if v = 0 then neutralColor else interpStops COLOR_SCALE ((v + R) / (2 * R))

/-- `series.max()`: maximum of a (nonempty) numeric column. -/
def listMax : List ℚ → ℚ
  | [] => 0
  | x :: xs => xs.foldl max x

/-- `series.min()`: minimum of a (nonempty) numeric column. -/
def listMin : List ℚ → ℚ
  | [] => 0
  | x :: xs => xs.foldl min x

/-- The symmetric color-range bound of `generate_heatmap` (source lines
54–55): `max(abs(df['资金净流入(亿)'].min()), abs(df['资金净流入(亿)'].max()))`;
the spec calls this `compute_range`. -/
def compute_range (df : Table) : ℚ :=
  let xs := (df.colOf "资金净流入(亿)").map Cell.toQ
  max |listMin xs| |listMax xs|

/-- One leaf tile of the treemap: its label, its area value and its
fill color. -/
structure Tile where
  label : Cell
  area : ℚ
  color : ColorV
deriving DecidableEq

/-- The chart description `generate_heatmap` hands to the display layer:
the leaf tiles, the color-scale domain `range_color`, the pinned color
midpoint, and the root aggregation value. -/
structure Chart where
  tiles : List Tile
  rangeColor : ℚ × ℚ
  midpoint : ℚ
  rootValue : ℚ
deriving DecidableEq

/-- `generate_heatmap` (source lines 46–64).  The configuration is taken
from the `px.treemap` call: one path level `板块名称`, values
`流向强度`, color `资金净流入(亿)`, `range_color = [-R, R]`,
`color_continuous_midpoint = 0`.  The leaf-tile layout itself is
modelled from the spec (§4.3), since it happens inside the external
plotting library: each row becomes one leaf tile whose area value is its
`流向强度`, and with `branchvalues='total'` the root aggregates to the
sum of its children. -/
def generate_heatmap (df : Table) : Chart :=
  let vals := (df.colOf "资金净流入(亿)").map Cell.toQ
  let areas := (df.colOf "流向强度").map Cell.toQ
  let labels := df.colOf "板块名称"
  let R := compute_range df
  let tiles := (labels.zip (areas.zip vals)).map
    (fun lav => { label := lav.1, area := lav.2.1, color := colorFor R lav.2.2 : Tile })
  { tiles := tiles
    rangeColor := (-R, R)
    midpoint := 0
    rootValue := (tiles.map Tile.area).sum }

/-- `Series.idxmax()` on the default integer index: pandas returns the
index of the first occurrence of the maximum. -/
def idxmax (xs : List ℚ) : Nat := xs.indexOf (listMax xs)

/-- `Series.idxmin()`: index of the first occurrence of the minimum. -/
def idxmin (xs : List ℚ) : Nat := xs.indexOf (listMin xs)

/-- The summary record of the `实时快报` panel. -/
structure Summary where
  maxInflowValue : ℚ
  maxInflowSector : Cell
  maxOutflowValue : ℚ
  maxOutflowSector : Cell
  bullish : Nat
  bearish : Nat
  totalNet : ℚ
deriving DecidableEq

/-- The metrics of `main_display` (source lines 124–132):
`df['资金净流入(亿)'].max()` with the sector at `idxmax` (`df.loc` on the
default `RangeIndex` is positional), symmetrically for the minimum;
`多空比` counts the rows with positive and with negative net inflow; the
total is displayed through `f"总净额 \x7bdf[...].sum():.2f\x7d亿"`,
i.e. rounded to two decimals. -/
def summaryOf (df : Table) : Summary :=
  let xs := (df.colOf "资金净流入(亿)").map Cell.toQ
  let names := df.colOf "板块名称"
  { maxInflowValue := listMax xs
    maxInflowSector := names.getD (idxmax xs) Cell.na
    maxOutflowValue := listMin xs
    maxOutflowSector := names.getD (idxmin xs) Cell.na
    bullish := (xs.filter (fun q => decide (0 < q))).length
    bearish := (xs.filter (fun q => decide (q < 0))).length
    totalNet := roundQ2 xs.sum }

/-- What `main_display` sends to the display layer: either the chart and
summary, or the degraded-state warning. -/
inductive Display where
  | degraded (msg : String)
  | rendered (chart : Chart) (summary : Summary)
deriving DecidableEq

/-- `main_display` (source lines 113–134): on a non-empty frame render
the heatmap and the summary; on an empty frame only the warning. -/
def main_display (df : Table) : Display :=
  if df.isEmpty then .degraded "⚠️ 数据获取失败，请检查网络连接"
  else .rendered (generate_heatmap df) (summaryOf df)

/-- The provider frame after stripping the period indicator from the
column names: the four canonical columns. -/
def canonRaw (rs : List RawRec) : Table :=
  ⟨[("名称", rs.map (fun r => Cell.str r.name)),
    ("涨跌幅", rs.map (fun r => r.pct)),
    ("主力净流入-净额", rs.map (fun r => r.netInflow)),
    ("主力净流入-净占比", rs.map (fun r => r.ratio))]⟩

/-- The raw input of the spec's error-handling test: row `A` with
string net inflow `"bad"` and parsable price change `"3.2"`, row `B`
with string net inflow `"100000000"` and unparsable price change
`"bad"`. -/
def c1Input : List RawRec :=
  [{ name := "A", pct := .str "3.2", netInflow := .str "bad", ratio := .na },
   { name := "B", pct := .str "bad", netInflow := .str "100000000", ratio := .na }]

/-- The same shape with row `A`'s net inflow genuinely missing (`NaN`)
rather than string-typed: the row-level drop the code actually
performs. -/
def c1MixedInput : List RawRec :=
  [{ name := "A", pct := .str "3.2", netInflow := .na, ratio := .na },
   { name := "B", pct := .str "bad", netInflow := .num 100000000, ratio := .na }]

/-- One raw row whose net inflow `12500000` lands exactly on a rounding
tie: `12500000 / 10^8 = 0.125`. -/
def c2TieInput : List RawRec :=
  [{ name := "甲", pct := .num 2, netInflow := .num 12500000, ratio := .num 1 }]

/-- One raw row with net inflow `250000000` (the spec's round-trip
value). -/
def c2RoundInput : List RawRec :=
  [{ name := "乙", pct := .num 1, netInflow := .num 250000000, ratio := .num 1 }]

/-- Three raw rows of which the middle one has a missing net inflow. -/
def c9Input : List RawRec :=
  [{ name := "A", pct := .num 1, netInflow := .num 100000000, ratio := .na },
   { name := "B", pct := .num 2, netInflow := .na, ratio := .na },
   { name := "C", pct := .num 3, netInflow := .num 200000000, ratio := .na }]

/-- One raw row whose net-inflow field is a non-numeric string. -/
def c10StrInput : List RawRec :=
  [{ name := "X", pct := .na, netInflow := .str "oops", ratio := .na }]

/-- A two-row snapshot whose net inflows are all exactly zero. -/
def zeroSnap : List NRow :=
  [{ name := "A", pct := .na, rawInflow := .num 0, ratio := .na,
     netInflowYi := 0, flowStrength := 0 },
   { name := "B", pct := .na, rawInflow := .num 0, ratio := .na,
     netInflowYi := 0, flowStrength := 0 }]

/-- The spec's tie-break snapshot: sectors `A` and `B`, both at `5.0`. -/
def snapAB : List NRow :=
  [{ name := "A", pct := .na, rawInflow := .num 500000000, ratio := .na,
     netInflowYi := 5, flowStrength := 5 },
   { name := "B", pct := .na, rawInflow := .num 500000000, ratio := .na,
     netInflowYi := 5, flowStrength := 5 }]

/-- The spec's summary example: net inflows `[-3, -1, 2, 2]`. -/
def snapC6 : List NRow :=
  [{ name := "甲", pct := .na, rawInflow := .num (-300000000), ratio := .na,
     netInflowYi := -3, flowStrength := 3 },
   { name := "乙", pct := .na, rawInflow := .num (-100000000), ratio := .na,
     netInflowYi := -1, flowStrength := 1 },
   { name := "丙", pct := .na, rawInflow := .num 200000000, ratio := .na,
     netInflowYi := 2, flowStrength := 2 },
   { name := "丁", pct := .na, rawInflow := .num 200000000, ratio := .na,
     netInflowYi := 2, flowStrength := 2 }]

/-- A two-row snapshot with flow strengths `3` and `4`. -/
def snapC8 : List NRow :=
  [{ name := "甲", pct := .na, rawInflow := .num 300000000, ratio := .na,
     netInflowYi := 3, flowStrength := 3 },
   { name := "乙", pct := .na, rawInflow := .num (-400000000), ratio := .na,
     netInflowYi := -4, flowStrength := 4 }]

/-- A one-row snapshot with net inflow `5`. -/
def snapC4 : List NRow :=
  [{ name := "X", pct := .na, rawInflow := .num 500000000, ratio := .na,
     netInflowYi := 5, flowStrength := 5 }]

/-- Scalar division of a column succeeds exactly on string-free columns,
and is then elementwise. -/
theorem colDiv_ok (cs : List Cell) (h : ∀ c ∈ cs, c.isStr = false) :
    colDiv cs = .ok (cs.map divCell) := by
  induction cs with
  | nil => rfl
  | cons c cs ih =>
    cases c with
    | str s => exact absurd (h _ (List.mem_cons_self _ _)) (by simp [Cell.isStr])
    | num q =>
      simp only [colDiv, List.map_cons, ih (fun c hc => h c (List.mem_cons_of_mem _ hc))]
      rfl
    | na =>
      simp only [colDiv, List.map_cons, ih (fun c hc => h c (List.mem_cons_of_mem _ hc))]
      rfl

/-- Scalar division of a column raises as soon as some cell is a
string. -/
theorem colDiv_err (cs : List Cell) (h : ∃ c ∈ cs, c.isStr = true) :
    ∃ e, colDiv cs = .error e := by
  induction cs with
  | nil => simp at h
  | cons c cs ih =>
    cases c with
    | str s => exact ⟨_, rfl⟩
    | num q =>
      obtain ⟨c', hc', hs⟩ := h
      rcases List.mem_cons.mp hc' with rfl | hmem
      · simp [Cell.isStr] at hs
      · obtain ⟨e, he⟩ := ih ⟨c', hmem, hs⟩
        exact ⟨e, by simp [colDiv, he, Except.map]⟩
    | na =>
      obtain ⟨c', hc', hs⟩ := h
      rcases List.mem_cons.mp hc' with rfl | hmem
      · simp [Cell.isStr] at hs
      · obtain ⟨e, he⟩ := ih ⟨c', hmem, hs⟩
        exact ⟨e, by simp [colDiv, he, Except.map]⟩

/-- Selecting with a mask computed by a predicate over the same rows is
filtering by that predicate. -/
theorem maskFilter_map {α β : Type} (f : α → β) (p : α → Bool) (rs : List α) :
    maskFilter (rs.map f) (rs.map p) = (rs.filter p).map f := by
  induction rs with
  | nil => rfl
  | cons r rs ih => by_cases hp : p r <;> simp [maskFilter, List.filter, hp, ih]

/-- On a kept, string-free row the divided-and-rounded net-inflow cell
is the numeric value `normRow` records. -/
theorem kept_cell (r : RawRec) (hs : r.netInflow.isStr = false) (hk : keepRow r = true) :
    roundCell (divCell r.netInflow) = Cell.num (roundQ2 (r.netInflow.toQ / 100000000)) := by
  cases hi : r.netInflow with
  | num q => simp [divCell, roundCell, Cell.toQ]
  | na => simp [keepRow, hi, divCell, roundCell, Cell.isNa] at hk
  | str s => simp [Cell.isStr, hi] at hs

/-- On string-free rows, survival of `dropna` is exactly "the net-inflow
field is not missing". -/
theorem keepRow_eq (r : RawRec) (hs : r.netInflow.isStr = false) :
    keepRow r = !r.netInflow.isNa := by
  unfold keepRow
  cases hi : r.netInflow with
  | num q => rfl
  | na => rfl
  | str s => simp [Cell.isStr, hi] at hs

/-- Central normalization lemma: on a raw frame whose net-inflow column
contains no strings, the pipeline succeeds and produces exactly the
in-order frame of normalized kept rows. -/
theorem processTable_canon (ind : String) (rs : List RawRec)
    (hstrip : stripCols ind (mkRaw ind rs) = canonRaw rs)
    (h : ∀ r ∈ rs, r.netInflow.isStr = false) :
    processTable ind (mkRaw ind rs) = .ok (toTable (normalizeRows rs)) := by
  have hdiv : colDiv (rs.map (fun r => r.netInflow)) =
      .ok (rs.map (fun r => divCell r.netInflow)) := by
    rw [colDiv_ok]
    · rw [List.map_map]; rfl
    · intro c hc
      obtain ⟨r, hr, rfl⟩ := List.mem_map.mp hc
      exact h r hr
  have h5 : (rs.filter keepRow).map (fun r => roundCell (divCell r.netInflow)) =
      (rs.filter keepRow).map (fun r => Cell.num (roundQ2 (r.netInflow.toQ / 100000000))) :=
    List.map_congr_left (fun r hr =>
      kept_cell r (h r (List.mem_of_mem_filter hr)) (List.of_mem_filter hr))
  have h6 : (rs.filter keepRow).map (fun r => absCell (roundCell (divCell r.netInflow))) =
      (rs.filter keepRow).map (fun r => Cell.num |roundQ2 (r.netInflow.toQ / 100000000)|) :=
    List.map_congr_left (fun r hr => by
      rw [kept_cell r (h r (List.mem_of_mem_filter hr)) (List.of_mem_filter hr)]
      rfl)
  unfold processTable
  rw [hstrip]
  show (colDiv (rs.map fun r => r.netInflow)).bind _ = _
  rw [hdiv]
  show Except.ok (Table.mk
    [("板块名称", maskFilter (rs.map fun r => Cell.str r.name)
        (((rs.map fun r => divCell r.netInflow).map roundCell).map fun c => !c.isNa)),
     ("涨跌幅", maskFilter ((rs.map fun r => r.pct).map coerceCell)
        (((rs.map fun r => divCell r.netInflow).map roundCell).map fun c => !c.isNa)),
     ("主力净流入-净额", maskFilter (rs.map fun r => r.netInflow)
        (((rs.map fun r => divCell r.netInflow).map roundCell).map fun c => !c.isNa)),
     ("主力净流入-净占比", maskFilter (rs.map fun r => r.ratio)
        (((rs.map fun r => divCell r.netInflow).map roundCell).map fun c => !c.isNa)),
     ("资金净流入(亿)", maskFilter ((rs.map fun r => divCell r.netInflow).map roundCell)
        (((rs.map fun r => divCell r.netInflow).map roundCell).map fun c => !c.isNa)),
     ("流向强度", maskFilter (((rs.map fun r => divCell r.netInflow).map roundCell).map absCell)
        (((rs.map fun r => divCell r.netInflow).map roundCell).map fun c => !c.isNa))])
    = Except.ok (toTable (normalizeRows rs))
  simp only [List.map_map]
  rw [maskFilter_map, maskFilter_map, maskFilter_map, maskFilter_map, maskFilter_map,
    maskFilter_map]
  show Except.ok (Table.mk
    [("板块名称", (rs.filter keepRow).map fun r => Cell.str r.name),
     ("涨跌幅", (rs.filter keepRow).map fun r => coerceCell r.pct),
     ("主力净流入-净额", (rs.filter keepRow).map fun r => r.netInflow),
     ("主力净流入-净占比", (rs.filter keepRow).map fun r => r.ratio),
     ("资金净流入(亿)", (rs.filter keepRow).map fun r => roundCell (divCell r.netInflow)),
     ("流向强度", (rs.filter keepRow).map fun r => absCell (roundCell (divCell r.netInflow)))])
    = Except.ok (toTable (normalizeRows rs))
  rw [h5, h6]
  simp only [toTable, normalizeRows, List.map_map]
  rfl

/-- `processDataE` on a successful fetch for any of the three offered
indicators: the normalized frame of the kept rows, in provider order. -/
theorem processDataE_ok (ind : String) (hind : ind ∈ indicators) (rs : List RawRec)
    (h : ∀ r ∈ rs, r.netInflow.isStr = false) :
    processDataE ind (.ok (mkRaw ind rs)) = .ok (toTable (normalizeRows rs)) := by
  have hmem : ind = "今日" ∨ ind = "5日" ∨ ind = "10日" := by
    simpa [indicators] using hind
  rcases hmem with rfl | rfl | rfl
  · exact processTable_canon "今日" rs rfl h
  · exact processTable_canon "5日" rs rfl h
  · exact processTable_canon "10日" rs rfl h

/-- `processDataE` raises whenever some net-inflow cell is a string. -/
theorem processDataE_err (ind : String) (hind : ind ∈ indicators) (rs : List RawRec)
    (h : ∃ r ∈ rs, r.netInflow.isStr = true) :
    ∃ e, processDataE ind (.ok (mkRaw ind rs)) = .error e := by
  obtain ⟨r, hr, hs⟩ := h
  obtain ⟨e, he⟩ := colDiv_err (rs.map fun r => r.netInflow)
    ⟨r.netInflow, List.mem_map_of_mem _ hr, hs⟩
  have hmem : ind = "今日" ∨ ind = "5日" ∨ ind = "10日" := by
    simpa [indicators] using hind
  refine ⟨e, ?_⟩
  rcases hmem with rfl | rfl | rfl <;>
    · show (colDiv (rs.map fun r => r.netInflow)).bind _ = _
      rw [he]
      rfl

/-- The sector-name column of a laid-out snapshot. -/
theorem toTable_names (snap : List NRow) :
    (toTable snap).colOf "板块名称" = snap.map (fun r => Cell.str r.name) := rfl

/-- The numeric net-inflow column of a laid-out snapshot. -/
theorem toTable_vals (snap : List NRow) :
    ((toTable snap).colOf "资金净流入(亿)").map Cell.toQ =
      snap.map (fun r => r.netInflowYi) := by
  show (snap.map fun r => Cell.num r.netInflowYi).map Cell.toQ = _
  rw [List.map_map]
  rfl

/-- The numeric flow-strength column of a laid-out snapshot. -/
theorem toTable_strengths (snap : List NRow) :
    ((toTable snap).colOf "流向强度").map Cell.toQ =
      snap.map (fun r => r.flowStrength) := by
  show (snap.map fun r => Cell.num r.flowStrength).map Cell.toQ = _
  rw [List.map_map]
  rfl

/-- A laid-out snapshot is an empty frame exactly when the snapshot is
empty. -/
theorem toTable_isEmpty (snap : List NRow) :
    (toTable snap).isEmpty = snap.isEmpty := by
  cases snap <;> rfl

/-- A lower bound below the seed or an element bounds `foldl max`. -/
theorem le_foldl_max (xs : List ℚ) (a x : ℚ) (h : x ≤ a ∨ x ∈ xs) :
    x ≤ xs.foldl max a := by
  induction xs generalizing a with
  | nil => simpa using h
  | cons y ys ih =>
    rcases h with h | h
    · exact ih (max a y) (Or.inl (h.trans (le_max_left a y)))
    · rcases List.mem_cons.mp h with rfl | h
      · exact ih (max a x) (Or.inl (le_max_right a x))
      · exact ih (max a y) (Or.inr h)

/-- `foldl max` is the seed or an element. -/
theorem foldl_max_mem (xs : List ℚ) (a : ℚ) :
    xs.foldl max a = a ∨ xs.foldl max a ∈ xs := by
  induction xs generalizing a with
  | nil => exact Or.inl rfl
  | cons y ys ih =>
    rcases ih (max a y) with h | h
    · rcases max_choice a y with hm | hm
      · exact Or.inl (by rw [List.foldl_cons, h, hm])
      · exact Or.inr (by rw [List.foldl_cons, h, hm]; exact List.mem_cons_self _ _)
    · exact Or.inr (List.mem_cons_of_mem _ h)

/-- `foldl min` bounds from below. -/
theorem foldl_min_le (xs : List ℚ) (a x : ℚ) (h : a ≤ x ∨ x ∈ xs) :
    xs.foldl min a ≤ x := by
  induction xs generalizing a with
  | nil => simpa using h
  | cons y ys ih =>
    rcases h with h | h
    · exact ih (min a y) (Or.inl ((min_le_left a y).trans h))
    · rcases List.mem_cons.mp h with rfl | h
      · exact ih (min a x) (Or.inl (min_le_right a x))
      · exact ih (min a y) (Or.inr h)

/-- `foldl min` is the seed or an element. -/
theorem foldl_min_mem (xs : List ℚ) (a : ℚ) :
    xs.foldl min a = a ∨ xs.foldl min a ∈ xs := by
  induction xs generalizing a with
  | nil => exact Or.inl rfl
  | cons y ys ih =>
    rcases ih (min a y) with h | h
    · rcases min_choice a y with hm | hm
      · exact Or.inl (by rw [List.foldl_cons, h, hm])
      · exact Or.inr (by rw [List.foldl_cons, h, hm]; exact List.mem_cons_self _ _)
    · exact Or.inr (List.mem_cons_of_mem _ h)

/-- The column maximum is attained on a nonempty column. -/
theorem listMax_mem (xs : List ℚ) (h : xs ≠ []) : listMax xs ∈ xs := by
  cases xs with
  | nil => exact absurd rfl h
  | cons x l =>
    show l.foldl max x ∈ x :: l
    rcases foldl_max_mem l x with h' | h'
    · rw [h']; exact List.mem_cons_self _ _
    · exact List.mem_cons_of_mem _ h'

/-- Every element is at most the column maximum. -/
theorem le_listMax (xs : List ℚ) (x : ℚ) (h : x ∈ xs) : x ≤ listMax xs := by
  cases xs with
  | nil => simp at h
  | cons y l =>
    rcases List.mem_cons.mp h with rfl | h'
    · exact le_foldl_max l x x (Or.inl le_rfl)
    · exact le_foldl_max l y x (Or.inr h')

/-- The column minimum is attained on a nonempty column. -/
theorem listMin_mem (xs : List ℚ) (h : xs ≠ []) : listMin xs ∈ xs := by
  cases xs with
  | nil => exact absurd rfl h
  | cons x l =>
    show l.foldl min x ∈ x :: l
    rcases foldl_min_mem l x with h' | h'
    · rw [h']; exact List.mem_cons_self _ _
    · exact List.mem_cons_of_mem _ h'

/-- Every element is at least the column minimum. -/
theorem listMin_le (xs : List ℚ) (x : ℚ) (h : x ∈ xs) : listMin xs ≤ x := by
  cases xs with
  | nil => simp at h
  | cons y l =>
    rcases List.mem_cons.mp h with rfl | h'
    · exact foldl_min_le l x x (Or.inl le_rfl)
    · exact foldl_min_le l y x (Or.inr h')

/-- Strictly before the first occurrence index, the value differs. -/
theorem getD_ne_of_lt_indexOf {α : Type} [DecidableEq α] (d : α) :
    ∀ (l : List α) (a : α) (j : Nat), j < l.indexOf a → j < l.length →
      l.getD j d ≠ a := by
  intro l
  induction l with
  | nil => intro a j h hl; simp at hl
  | cons b l ih =>
    intro a j h hl
    by_cases hba : b = a
    · rw [List.indexOf_cons_eq _ hba] at h
      exact absurd h (Nat.not_lt_zero j)
    · rw [List.indexOf_cons_ne _ hba] at h
      cases j with
      | zero => simpa [List.getD_cons_zero] using hba
      | succ j =>
        rw [List.getD_cons_succ]
        exact ih a j (Nat.lt_of_succ_lt_succ h)
          (Nat.lt_of_succ_lt_succ (by simpa using hl))

/-- The value at the first occurrence index. -/
theorem getD_indexOf {α : Type} [DecidableEq α] (d : α) (l : List α) (a : α)
    (h : a ∈ l) : l.getD (l.indexOf a) d = a := by
  rw [List.getD_eq_getElem l d (List.indexOf_lt_length.mpr h)]
  exact List.getElem_indexOf _

/-- The unpinned stop interpolation also sends the exact midpoint
position `1 / 2` to the neutral stop. -/
theorem interpStops_half : interpStops COLOR_SCALE (1 / 2) = neutralColor := by
  with_unfolding_all decide

/-- For a positive range the normalized position of value `0` is `1 / 2`,
so the pin `colorFor R 0 = neutralColor` agrees with the underlying
interpolation. -/
theorem interp_zero_of_pos (R : ℚ) (hR : 0 < R) :
    interpStops COLOR_SCALE ((0 + R) / (2 * R)) = neutralColor := by
  have h2 : (0 + R) / (2 * R) = 1 / 2 := by
    rw [zero_add]
    rw [div_eq_div_iff (by positivity) (by norm_num)]
    ring
  rw [h2]
  exact interpStops_half

/-- The tiles of the rendered treemap of a laid-out snapshot: one leaf
tile per row, labelled by the sector, sized by its flow strength and
colored by its signed net inflow. -/
theorem tiles_eq (snap : List NRow) :
    (generate_heatmap (toTable snap)).tiles =
      snap.map (fun r =>
        { label := Cell.str r.name, area := r.flowStrength,
          color := colorFor (compute_range (toTable snap)) r.netInflowYi : Tile }) := by
  show ((((toTable snap).colOf "板块名称").zip
      ((((toTable snap).colOf "流向强度").map Cell.toQ).zip
        (((toTable snap).colOf "资金净流入(亿)").map Cell.toQ))).map _) = _
  rw [toTable_names, toTable_strengths, toTable_vals, List.zip_map', List.zip_map',
    List.map_map]
  rfl

/-- **C1**, counterexample.  On the spec's error-handling input (row `A`
with string net inflow `"bad"`, row `B` with string net inflow
`"100000000"`), `process_data` does not return a one-row snapshot for
`B`: the elementwise division raises `TypeError` on the string cells,
the catch-all handler fires, and the whole snapshot is discarded — the
result is the empty frame with zero rows. -/
theorem C1_counterexample :
    (process_data "今日" (.ok (mkRaw "今日" c1Input))).1 = Table.empty
    ∧ (process_data "今日" (.ok (mkRaw "今日" c1Input))).1.rowCount = 0 := by
  exact ⟨by with_unfolding_all rfl, by with_unfolding_all rfl⟩

/-- **C1**, amended.  Normalization drops individually exactly the rows
whose net-inflow field is missing (`NaN`) and retains rows whose
price-change field is unparsable (price change coerced to `NaN` by
`normRow`); but a string-typed (unparsable) net-inflow value anywhere in
the table makes the elementwise division raise, so the entire snapshot
is discarded and the empty frame is returned instead of a row-level
drop. -/
theorem C1_amended (ind : String) (hind : ind ∈ indicators) (rs : List RawRec) :
    ((∀ r ∈ rs, r.netInflow.isStr = false) →
      (process_data ind (.ok (mkRaw ind rs))).1 =
        toTable ((rs.filter (fun r => !r.netInflow.isNa)).map normRow))
    ∧ ((∃ r ∈ rs, r.netInflow.isStr = true) →
      (process_data ind (.ok (mkRaw ind rs))).1 = Table.empty) := by
  constructor
  · intro h
    have h1 : (process_data ind (.ok (mkRaw ind rs))).1 = toTable (normalizeRows rs) := by
      unfold process_data
      rw [processDataE_ok ind hind rs h]
    rw [h1]
    show toTable ((rs.filter keepRow).map normRow) = _
    rw [List.filter_congr (fun r hr => keepRow_eq r (h r hr))]
  · intro hex
    obtain ⟨e, he⟩ := processDataE_err ind hind rs hex
    unfold process_data
    rw [he]

/-- **C1**, witness.  Row `A` with genuinely missing net inflow is
dropped while row `B` (numeric net inflow `10^8`, unparsable price
change `"bad"`) is kept with `net_inflow_yi = 1` and price change `NaN`;
and on the spec's all-string input the result is the empty frame. -/
theorem C1_witness :
    (process_data "今日" (.ok (mkRaw "今日" c1MixedInput))).1 =
      toTable [{ name := "B", pct := Cell.na, rawInflow := Cell.num 100000000,
                 ratio := Cell.na, netInflowYi := 1, flowStrength := 1 }]
    ∧ (process_data "今日" (.ok (mkRaw "今日" c1Input))).1 = Table.empty := by
  constructor
  · rw [(C1_amended "今日" (by decide) c1MixedInput).1 (by decide)]
    with_unfolding_all rfl
  · exact (C1_amended "今日" (by decide) c1Input).2 (by decide)

/-- **C2**, counterexample.  The code rounds half-to-even
(`Series.round(2)`, i.e. numpy rounding), not half-up: normalizing a raw
row with net inflow `12500000` (exactly `0.125` hundred-million units)
yields `net_inflow_yi = 0.12`, while the spec's half-up rounding of the
same quotient yields `0.13`. -/
theorem C2_counterexample :
    (process_data "今日" (.ok (mkRaw "今日" c2TieInput))).1.colOf "资金净流入(亿)" =
      [Cell.num (12 / 100)]
    ∧ roundHalfUp2 ((12500000 : ℚ) / 100000000) = 13 / 100
    ∧ (12 / 100 : ℚ) ≠ 13 / 100 := by
  refine ⟨?_, ?_, ?_⟩
  · with_unfolding_all rfl
  · with_unfolding_all rfl
  · with_unfolding_all decide

/-- **C2**, amended.  For every row kept by the normalizer, under any of
the offered period indicators, `net_inflow_yi` equals the raw net-inflow
amount divided by `10^8` and rounded **half-to-even** to 2 decimal
places. -/
theorem C2_amended (ind : String) (hind : ind ∈ indicators) (rs : List RawRec)
    (h : ∀ r ∈ rs, r.netInflow.isStr = false) :
    (process_data ind (.ok (mkRaw ind rs))).1.colOf "资金净流入(亿)" =
      (rs.filter keepRow).map (fun r => Cell.num (roundQ2 (r.netInflow.toQ / 100000000))) := by
  unfold process_data
  rw [processDataE_ok ind hind rs h]
  show ((rs.filter keepRow).map normRow).map (fun r => Cell.num r.netInflowYi) = _
  rw [List.map_map]
  rfl

/-- **C2**, witness.  Normalizing a raw row with net inflow `250000000`
under the indicator `"今日"` yields `net_inflow_yi = 2.5`. -/
theorem C2_witness :
    (process_data "今日" (.ok (mkRaw "今日" c2RoundInput))).1.colOf "资金净流入(亿)" =
      [Cell.num (5 / 2)] := by
  rw [C2_amended "今日" (by decide) c2RoundInput (by decide)]
  with_unfolding_all rfl

/-- **C3**, counterexample.  On the all-zero two-row snapshot the code's
`compute_range` returns exactly `0`, not some `R > 0`: the source has no
epsilon floor on the color range. -/
theorem C3_counterexample :
    compute_range (toTable zeroSnap) = 0 ∧ ¬(0 < compute_range (toTable zeroSnap)) := by
  have h : compute_range (toTable zeroSnap) = 0 := by with_unfolding_all rfl
  exact ⟨h, by rw [h]; exact lt_irrefl 0⟩

/-- **C3**, amended.  For every non-empty snapshot whose net inflows are
all exactly zero, `compute_range` returns exactly `R = 0` (the color
domain degenerates to `[0, 0]`; there is no epsilon floor), and every
tile still maps to the neutral color because value `0` is pinned to the
scale midpoint. -/
theorem C3_amended (snap : List NRow) (hne : snap ≠ [])
    (h0 : ∀ r ∈ snap, r.netInflowYi = 0) :
    compute_range (toTable snap) = 0
    ∧ ∀ t ∈ (generate_heatmap (toTable snap)).tiles, t.color = neutralColor := by
  have hxs : snap.map (fun r => r.netInflowYi) ≠ [] := by simpa using hne
  have hall : ∀ x ∈ snap.map (fun r => r.netInflowYi), x = 0 := by
    intro x hx
    obtain ⟨r, hr, rfl⟩ := List.mem_map.mp hx
    exact h0 r hr
  have hmax : listMax (snap.map fun r => r.netInflowYi) = 0 :=
    hall _ (listMax_mem _ hxs)
  have hmin : listMin (snap.map fun r => r.netInflowYi) = 0 :=
    hall _ (listMin_mem _ hxs)
  have hR : compute_range (toTable snap) = 0 := by
    unfold compute_range
    rw [toTable_vals]
    show |listMin (snap.map fun r => r.netInflowYi)| ⊔
      |listMax (snap.map fun r => r.netInflowYi)| = 0
    rw [hmin, hmax]
    simp
  refine ⟨hR, ?_⟩
  intro t ht
  rw [tiles_eq] at ht
  obtain ⟨r, hr, rfl⟩ := List.mem_map.mp ht
  show colorFor _ r.netInflowYi = _
  rw [h0 r hr]
  unfold colorFor
  exact if_pos rfl

/-- **C3**, witness.  On the concrete all-zero snapshot the range is `0`
and both tiles are colored by the neutral stop. -/
theorem C3_witness :
    compute_range (toTable zeroSnap) = 0
    ∧ (generate_heatmap (toTable zeroSnap)).tiles.map Tile.color =
        [neutralColor, neutralColor] := by
  obtain ⟨h1, _⟩ := C3_amended zeroSnap (by decide) (by with_unfolding_all decide)
  exact ⟨h1, by with_unfolding_all rfl⟩

/-- **C4**.  For every non-empty snapshot the color-scale domain is the
symmetric interval `[-R, R]` with
`R = max(|min net_inflow_yi|, |max net_inflow_yi|) ≥ 0`, and the color
assigned to value `0` is the neutral white stop regardless of `R` (for
`R > 0` the pinned value agrees with the underlying five-stop
interpolation at position `1/2`). -/
theorem C4_color_domain (snap : List NRow) (hne : snap ≠ []) :
    (generate_heatmap (toTable snap)).rangeColor =
      (-(compute_range (toTable snap)), compute_range (toTable snap))
    ∧ compute_range (toTable snap) =
        max |listMin (snap.map fun r => r.netInflowYi)|
          |listMax (snap.map fun r => r.netInflowYi)|
    ∧ 0 ≤ compute_range (toTable snap)
    ∧ colorFor (compute_range (toTable snap)) 0 = neutralColor
    ∧ (0 < compute_range (toTable snap) →
        interpStops COLOR_SCALE
          ((0 + compute_range (toTable snap)) / (2 * compute_range (toTable snap))) =
          neutralColor) := by
  have hval : compute_range (toTable snap) =
      max |listMin (snap.map fun r => r.netInflowYi)|
        |listMax (snap.map fun r => r.netInflowYi)| := by
    unfold compute_range
    rw [toTable_vals]
  refine ⟨rfl, hval, ?_, ?_, ?_⟩
  · rw [hval]
    exact le_trans (abs_nonneg _) (le_max_left _ _)
  · unfold colorFor
    exact if_pos rfl
  · intro hpos
    exact interp_zero_of_pos _ hpos

/-- **C4**, witness.  On a one-row snapshot with net inflow `5` the
domain is `[-5, 5]` and value `0` maps to the neutral stop. -/
theorem C4_witness :
    (generate_heatmap (toTable snapC4)).rangeColor = (-(5 : ℚ), 5)
    ∧ colorFor (compute_range (toTable snapC4)) 0 = neutralColor := by
  obtain ⟨h1, _, _, h4, _⟩ := C4_color_domain snapC4 (by decide)
  refine ⟨?_, h4⟩
  rw [h1]
  with_unfolding_all rfl

/-- **C5**.  If the provider call fails, `process_data` reports the
condition (`st.error`, the `some` message) and returns the empty frame
instead of propagating the exception; and `main_display`, given the
empty frame, produces only the degraded-state warning — the `rendered`
branch with its chart and summary is never built. -/
theorem C5_provider_failure (ind e : String) :
    process_data ind (.error e) = (Table.empty, some ("数据错误: " ++ e))
    ∧ main_display Table.empty = .degraded "⚠️ 数据获取失败，请检查网络连接" :=
  ⟨rfl, rfl⟩

/-- **C6**.  For every non-empty snapshot, `bullish_count` is the number
of rows with positive net inflow, `bearish_count` the number with
negative net inflow (zero rows count toward neither, the comparisons
being strict), and `total_net` is the sum of all `net_inflow_yi` rounded
to two decimal places for display. -/
theorem C6_summary_counts (snap : List NRow) (hne : snap ≠ []) :
    (summaryOf (toTable snap)).bullish =
      ((snap.map fun r => r.netInflowYi).filter (fun q => decide (0 < q))).length
    ∧ (summaryOf (toTable snap)).bearish =
      ((snap.map fun r => r.netInflowYi).filter (fun q => decide (q < 0))).length
    ∧ (summaryOf (toTable snap)).totalNet =
        roundQ2 ((snap.map fun r => r.netInflowYi).sum) := by
  unfold summaryOf
  rw [toTable_vals]
  exact ⟨rfl, rfl, rfl⟩

/-- **C6**, witness.  For net inflows `[-3, -1, 2, 2]`:
`bullish_count = 2`, `bearish_count = 2`, `total_net = 0`. -/
theorem C6_witness :
    (summaryOf (toTable snapC6)).bullish = 2
    ∧ (summaryOf (toTable snapC6)).bearish = 2
    ∧ (summaryOf (toTable snapC6)).totalNet = 0 := by
  obtain ⟨h1, h2, h3⟩ := C6_summary_counts snapC6 (by decide)
  refine ⟨?_, ?_, ?_⟩
  · rw [h1]; with_unfolding_all rfl
  · rw [h2]; with_unfolding_all rfl
  · rw [h3]; with_unfolding_all rfl

/-- **C7**.  For every non-empty snapshot, `max_inflow_sector` /
`max_outflow_sector` are the sector names at `idxmax` / `idxmin` of the
net-inflow column, and those indices attain the maximum / minimum while
every strictly earlier index does not — i.e. ties are broken by the
first row in snapshot order.  (`summaryOf` is a pure function, so the
result is reproducible across repeated runs by construction.) -/
theorem C7_tiebreak (snap : List NRow) (hne : snap ≠ []) :
    (summaryOf (toTable snap)).maxInflowSector =
      (snap.map (fun r => Cell.str r.name)).getD
        (idxmax (snap.map fun r => r.netInflowYi)) Cell.na
    ∧ (snap.map fun r => r.netInflowYi).getD
        (idxmax (snap.map fun r => r.netInflowYi)) 0 =
        listMax (snap.map fun r => r.netInflowYi)
    ∧ (∀ j, j < idxmax (snap.map fun r => r.netInflowYi) →
        (snap.map fun r => r.netInflowYi).getD j 0 ≠
          listMax (snap.map fun r => r.netInflowYi))
    ∧ (summaryOf (toTable snap)).maxOutflowSector =
      (snap.map (fun r => Cell.str r.name)).getD
        (idxmin (snap.map fun r => r.netInflowYi)) Cell.na
    ∧ (snap.map fun r => r.netInflowYi).getD
        (idxmin (snap.map fun r => r.netInflowYi)) 0 =
        listMin (snap.map fun r => r.netInflowYi)
    ∧ (∀ j, j < idxmin (snap.map fun r => r.netInflowYi) →
        (snap.map fun r => r.netInflowYi).getD j 0 ≠
          listMin (snap.map fun r => r.netInflowYi)) := by
  have hxs : snap.map (fun r => r.netInflowYi) ≠ [] := by simpa using hne
  refine ⟨?_, ?_, ?_, ?_, ?_, ?_⟩
  · simp only [summaryOf, toTable_names, toTable_vals]
  · exact getD_indexOf 0 _ _ (listMax_mem _ hxs)
  · intro j hj heq
    exact getD_ne_of_lt_indexOf 0 _ _ j hj
      (lt_of_lt_of_le hj List.indexOf_le_length) heq
  · simp only [summaryOf, toTable_names, toTable_vals]
  · exact getD_indexOf 0 _ _ (listMin_mem _ hxs)
  · intro j hj heq
    exact getD_ne_of_lt_indexOf 0 _ _ j hj
      (lt_of_lt_of_le hj List.indexOf_le_length) heq

/-- **C7**, witness.  On the snapshot `[{A: 5}, {B: 5}]` the maximum is
tied and the first sector `"A"` is reported. -/
theorem C7_witness :
    (summaryOf (toTable snapAB)).maxInflowSector = Cell.str "A" := by
  rw [(C7_tiebreak snapAB (by decide)).1]
  with_unfolding_all rfl

/-- **C8**.  For every non-empty snapshot the rendered treemap has one
leaf tile per sector whose area value is its `flow_strength` (in order),
and under total branch-value semantics the sum of the tile areas — and
the root aggregation value — equals the sum of `flow_strength` over the
snapshot, with no independent top-level scaling. -/
theorem C8_treemap_total (snap : List NRow) (hne : snap ≠ []) :
    (generate_heatmap (toTable snap)).tiles.length = snap.length
    ∧ (generate_heatmap (toTable snap)).tiles.map Tile.area =
        snap.map (fun r => r.flowStrength)
    ∧ ((generate_heatmap (toTable snap)).tiles.map Tile.area).sum =
        (snap.map (fun r => r.flowStrength)).sum
    ∧ (generate_heatmap (toTable snap)).rootValue =
        (snap.map (fun r => r.flowStrength)).sum := by
  have hareas : (generate_heatmap (toTable snap)).tiles.map Tile.area =
      snap.map (fun r => r.flowStrength) := by
    rw [tiles_eq, List.map_map]
    rfl
  refine ⟨?_, hareas, by rw [hareas], ?_⟩
  · rw [tiles_eq, List.length_map]
  · show ((generate_heatmap (toTable snap)).tiles.map Tile.area).sum = _
    rw [hareas]

/-- **C8**, witness.  On a snapshot with flow strengths `3` and `4` the
treemap has two tiles, total tile area `7`, and root value `7`. -/
theorem C8_witness :
    ((generate_heatmap (toTable snapC8)).tiles.map Tile.area).sum = 7
    ∧ (generate_heatmap (toTable snapC8)).rootValue = 7
    ∧ (generate_heatmap (toTable snapC8)).tiles.length = 2 := by
  obtain ⟨h1, _, h3, h4⟩ := C8_treemap_total snapC8 (by decide)
  refine ⟨?_, ?_, ?_⟩
  · rw [h3]; with_unfolding_all rfl
  · rw [h4]; with_unfolding_all rfl
  · rw [h1]; rfl

/-- **C9**.  Normalization preserves provider order: for a string-free
input the sector-name column of the returned frame is exactly the
filtered input, in order, and in particular a sublist of the provider's
name sequence — dropping a row never reorders the remaining rows. -/
theorem C9_order (ind : String) (hind : ind ∈ indicators) (rs : List RawRec)
    (h : ∀ r ∈ rs, r.netInflow.isStr = false) :
    (process_data ind (.ok (mkRaw ind rs))).1.colOf "板块名称" =
      (rs.filter keepRow).map (fun r => Cell.str r.name)
    ∧ List.Sublist ((process_data ind (.ok (mkRaw ind rs))).1.colOf "板块名称")
        (rs.map (fun r => Cell.str r.name)) := by
  have h1 : (process_data ind (.ok (mkRaw ind rs))).1.colOf "板块名称" =
      (rs.filter keepRow).map (fun r => Cell.str r.name) := by
    unfold process_data
    rw [processDataE_ok ind hind rs h]
    show ((rs.filter keepRow).map normRow).map (fun r => Cell.str r.name) = _
    rw [List.map_map]
    rfl
  refine ⟨h1, ?_⟩
  rw [h1]
  exact (List.filter_sublist rs).map _

/-- **C9**, witness.  With the middle row's net inflow missing, the
returned names are `["A", "C"]`: the retained rows in provider order. -/
theorem C9_witness :
    (process_data "今日" (.ok (mkRaw "今日" c9Input))).1.colOf "板块名称" =
      [Cell.str "A", Cell.str "C"] := by
  rw [(C9_order "今日" (by decide) c9Input (by decide)).1]
  with_unfolding_all rfl

/-- **C10**.  `process_data` is total over exceptions: a failed fetch, a
frame missing the expected net-inflow column, and a non-numeric
net-inflow column that makes the division raise are all caught by the
single catch-all handler, which returns the empty frame — a
normalization-stage error discards the whole snapshot rather than
individual rows, and the function never propagates an exception (its
result is a plain pair for every input). -/
theorem C10_total (ind : String) :
    (∀ e, process_data ind (.error e) = (Table.empty, some ("数据错误: " ++ e)))
    ∧ (process_data ind (.ok Table.empty)).1 = Table.empty
    ∧ (∀ rs, ind ∈ indicators → (∃ r ∈ rs, r.netInflow.isStr = true) →
        (process_data ind (.ok (mkRaw ind rs))).1 = Table.empty)
    ∧ (∀ fetch, (processDataE ind fetch).isOk = false →
        (process_data ind fetch).1 = Table.empty) := by
  refine ⟨fun e => rfl, rfl, ?_, ?_⟩
  · intro rs hind hex
    obtain ⟨e, he⟩ := processDataE_err ind hind rs hex
    unfold process_data
    rw [he]
  · intro fetch hok
    unfold process_data
    cases hE : processDataE ind fetch with
    | ok t =>
      rw [hE] at hok
      simp [Except.isOk, Except.toBool] at hok
    | error e => rfl

/-- **C10**, witness.  A string net-inflow value and a failed fetch both
yield the empty frame. -/
theorem C10_witness :
    (process_data "今日" (.ok (mkRaw "今日" c10StrInput))).1 = Table.empty
    ∧ (process_data "今日" (.error "ConnectionError")).1 = Table.empty := by
  have h := C10_total "今日"
  exact ⟨h.2.2.1 c10StrInput (by decide) (by decide),
    by rw [h.1 "ConnectionError"]⟩

end StockBlock
